import Mathlib

/-!
Shallow embedding of `crates/ui/src/input/blink_cursor.rs` (struct `BlinkCursor`).

The Rust code is a debounced blink scheduler with fields `visible : bool`,
`paused : bool`, `epoch : usize`, and `_task : Task<()>`, which owns at most one
in-flight deferred continuation.  The host framework (gpui) cancels a `Task`
when it is dropped, so every assignment `self._task = cx.spawn(...)` cancels the
previously owned continuation; `stop()` does not touch `_task`, so a pending
continuation survives `stop()` and still fires.  We model this with a single
`Option`-valued task slot holding the continuation together with its absolute
deadline; overwriting the slot is cancellation, and only the continuation
currently in the slot can ever fire.

`cx.notify()` calls are counted in a ghost field `notified`, so "signals
notify" and "does not signal notify" become statements about that counter.
Times and durations are natural numbers of milliseconds; `epoch` (a `usize`
counter that only ever steps by `+= 1` from 0) is modelled as `Nat`.
The `this.upgrade()` weak-reference check concerns destruction of the owning
widget, which is outside the state machine modelled here: every continuation
that fires finds the scheduler alive.
-/

/-- `static INTERVAL: Duration = Duration::from_millis(500)` (milliseconds). -/
def INTERVAL : Nat := 500

/-- `static PAUSE_DELAY: Duration = Duration::from_millis(300)` (milliseconds). -/
def PAUSE_DELAY : Nat := 300

/-- The two kinds of deferred continuation the code spawns.

* `BlinkCont.blink e` is the closure spawned in `BlinkCursor::blink` (and in the
  inner spawn of the resume step): it captures the epoch value `e` returned by
  `next_epoch()` and, after its timer, calls `this.blink(e, cx)`.
* `BlinkCont.resume g` is the closure spawned in `BlinkCursor::pause`: after
  `PAUSE_DELAY` it clears `paused`, forces `visible`, notifies, advances the
  epoch and spawns a blink continuation.  The Rust closure captures no epoch;
  the field `g` is ghost bookkeeping recording the scheduler's current epoch at
  the moment the continuation was scheduled (the value `next_epoch()` returned
  inside `pause`), so that staleness of a pending resume can be stated.  The
  continuation body never reads `g`. -/
inductive BlinkCont where
  | blink (epoch : Nat)
  | resume (ghostEpoch : Nat)
deriving DecidableEq, Repr

/-- State of `BlinkCursor`: the three data fields of the Rust struct, the owned
task slot `_task` as deadline-plus-continuation (`none` models the completed
`Task::ready(())` placeholder), and the ghost count of `cx.notify()` calls. -/
structure BlinkCursor where
  visible : Bool
  paused : Bool
  epoch : Nat
  _task : Option (Nat × BlinkCont)
  notified : Nat
deriving DecidableEq, Repr

namespace BlinkCursor

/-- `BlinkCursor::new()`: visible = false, paused = false, epoch = 0, and a
ready (inert) task. -/
def new : BlinkCursor :=
  { visible := false, paused := false, epoch := 0, _task := none, notified := 0 }

/-- `fn next_epoch(&mut self) -> usize { self.epoch += 1; self.epoch }`:
returns the incremented epoch together with the updated state. -/
def next_epoch (s : BlinkCursor) : Nat × BlinkCursor :=
  (s.epoch + 1, { s with epoch := s.epoch + 1 })

/-- `fn blink(&mut self, epoch: usize, cx)`, called at absolute time `now`.
If `self.paused || epoch != self.epoch`, set `visible = true` and return
(no notify, no epoch change, no new task).  Otherwise toggle `visible`,
notify, advance the epoch, and spawn a blink continuation carrying the new
epoch with deadline `now + INTERVAL` (overwriting `_task`). -/
def blink (now : Nat) (epoch : Nat) (s : BlinkCursor) : BlinkCursor :=
  if s.paused || epoch != s.epoch then
    { s with visible := true }
  else
    let s1 := { s with visible := !s.visible, notified := s.notified + 1 }
    let (e, s2) := s1.next_epoch
    { s2 with _task := some (now + INTERVAL, BlinkCont.blink e) }

/-- `pub fn start(&mut self, cx)`: `self.blink(self.epoch, cx)`. -/
def start (now : Nat) (s : BlinkCursor) : BlinkCursor :=
  s.blink now s.epoch

/-- `pub fn stop(&mut self, cx)`: `self.epoch = 0; cx.notify();`.
`_task` is not touched, so a pending continuation stays in flight. -/
def stop (s : BlinkCursor) : BlinkCursor :=
  { s with epoch := 0, notified := s.notified + 1 }

/-- `pub fn pause(&mut self, cx)`: set `paused = true`, `visible = true`,
notify, advance the epoch ("to cancel any in-flight blink task"), and spawn
the resume continuation with deadline `now + PAUSE_DELAY`, overwriting (and
thereby cancelling) whatever `_task` held.  The ghost epoch recorded in the
continuation is the epoch current at this moment. -/
def pause (now : Nat) (s : BlinkCursor) : BlinkCursor :=
  let s1 := { s with paused := true, visible := true, notified := s.notified + 1 }
  let (e, s2) := s1.next_epoch
  { s2 with _task := some (now + PAUSE_DELAY, BlinkCont.resume e) }

/-- Body of the resume continuation spawned by `pause` (the `this.update`
closure at lines 92-106 of blink_cursor.rs), run at absolute time `now`:
`paused = false; visible = true; cx.notify();` then advance the epoch and
spawn a blink continuation with the new epoch and deadline `now + INTERVAL`.
Note the Rust closure performs no epoch comparison: it runs unconditionally. -/
def resumeFromPause (now : Nat) (s : BlinkCursor) : BlinkCursor :=
  let s1 := { s with paused := false, visible := true, notified := s.notified + 1 }
  let (e, s2) := s1.next_epoch
  { s2 with _task := some (now + INTERVAL, BlinkCont.blink e) }

/-- Run a continuation body at time `now` (the timer has expired and
`this.upgrade()` succeeded). -/
def runCont (now : Nat) (c : BlinkCont) (s : BlinkCursor) : BlinkCursor :=
  match c with
  | BlinkCont.blink e => s.blink now e
  | BlinkCont.resume _ => s.resumeFromPause now

/-- Fire the currently owned continuation at time `now`: the task completes
(the slot is emptied) and its body runs, possibly storing a successor task.
Only the continuation currently owned by `_task` can fire, because assigning
`_task` drops, and gpui thereby cancels, the previous task. -/
def fire (now : Nat) (s : BlinkCursor) : BlinkCursor :=
  match s._task with
  | none => s
  | some (_, c) => runCont now c { s with _task := none }

/-- `pub fn visible(&self) -> bool { self.paused || self.visible }`
(named `visibleQuery` here because the Rust method shares its name with the
field it reads). -/
def visibleQuery (s : BlinkCursor) : Bool :=
  s.paused || s.visible

end BlinkCursor

/-- External events that can re-enter the scheduler: the three public entry
points, and the expiry of the owned timer. -/
inductive Event where
  | start
  | stop
  | pause
  | fire
deriving DecidableEq, Repr

/-- Effect of one event at absolute time `now`. -/
def step (now : Nat) (e : Event) (s : BlinkCursor) : BlinkCursor :=
  match e with
  | Event.start => s.start now
  | Event.stop => s.stop
  | Event.pause => s.pause now
  | Event.fire => s.fire now

/-- An event is enabled at time `now`: the public entry points always are; the
timer can only fire if a task is owned and its deadline has passed. -/
def ready (e : Event) (now : Nat) (s : BlinkCursor) : Prop :=
  match e with
  | Event.fire =>
    match s._task with
    | none => False
    | some (d, _) => d ≤ now
  | _ => True

/-- Timed traces: `TraceFrom t0 s0 t s` holds when the scheduler, in state `s0`
at time `t0`, can reach state `s` at time `t` through a sequence of enabled
events at nondecreasing times. -/
inductive TraceFrom : Nat → BlinkCursor → Nat → BlinkCursor → Prop where
  | refl (t : Nat) (s : BlinkCursor) : TraceFrom t s t s
  | step {t0 s0 t s} (t' : Nat) (e : Event) :
      TraceFrom t0 s0 t s → t ≤ t' → ready e t' s →
      TraceFrom t0 s0 t' (step t' e s)

/-- A state reachable from the freshly constructed scheduler. -/
def Reaches (t : Nat) (s : BlinkCursor) : Prop :=
  TraceFrom 0 BlinkCursor.new t s

/-! ### Unfolding equations for the operations -/

/-- The stale / suppressed branch of `blink`: when `paused` holds or the passed
epoch differs from the current one, only `visible` is set. -/
theorem blink_stale (now ep : Nat) (s : BlinkCursor)
    (h : s.paused = true ∨ ep ≠ s.epoch) :
    s.blink now ep = { s with visible := true } := by
  unfold BlinkCursor.blink
  rcases h with h | h
  · simp [h]
  · simp [h]

/-- The active branch of `blink`: toggle, notify, advance the epoch, schedule
the next blink continuation. -/
theorem blink_active (now ep : Nat) (s : BlinkCursor)
    (hp : s.paused = false) (he : ep = s.epoch) :
    s.blink now ep =
      { s with
        visible := !s.visible,
        notified := s.notified + 1,
        epoch := s.epoch + 1,
        _task := some (now + INTERVAL, BlinkCont.blink (s.epoch + 1)) } := by
  unfold BlinkCursor.blink
  simp [hp, he, BlinkCursor.next_epoch]

/-- Unfolding equation for `pause`. -/
theorem pause_eq (now : Nat) (s : BlinkCursor) :
    s.pause now =
      { s with
        paused := true,
        visible := true,
        notified := s.notified + 1,
        epoch := s.epoch + 1,
        _task := some (now + PAUSE_DELAY, BlinkCont.resume (s.epoch + 1)) } := by
  unfold BlinkCursor.pause
  simp [BlinkCursor.next_epoch]

/-- Unfolding equation for the resume-continuation body. -/
theorem resumeFromPause_eq (now : Nat) (s : BlinkCursor) :
    s.resumeFromPause now =
      { s with
        paused := false,
        visible := true,
        notified := s.notified + 1,
        epoch := s.epoch + 1,
        _task := some (now + INTERVAL, BlinkCont.blink (s.epoch + 1)) } := by
  unfold BlinkCursor.resumeFromPause
  simp [BlinkCursor.next_epoch]

/-- Times along a trace never decrease. -/
theorem TraceFrom.time_mono {t0 : Nat} {s0 : BlinkCursor} {t : Nat}
    {s : BlinkCursor} (h : TraceFrom t0 s0 t s) : t0 ≤ t := by
  induction h with
  | refl => exact Nat.le_refl _
  | step _ _ _ hle _ ih => exact Nat.le_trans ih hle

/-! ### Invariants along traces -/

/-- Every blink continuation held in the task slot carries a nonzero epoch
(it was produced by `next_epoch`, which returns `epoch + 1`). -/
def BlinkEpochPos (s : BlinkCursor) : Prop :=
  ∀ d ep, s._task = some (d, BlinkCont.blink ep) → 0 < ep

theorem blinkEpochPos_blink (now ep0 : Nat) (s : BlinkCursor)
    (h : BlinkEpochPos s) : BlinkEpochPos (s.blink now ep0) := by
  by_cases hp : s.paused = true
  · rw [blink_stale now ep0 s (Or.inl hp)]
    intro d ep ht
    exact h d ep ht
  · by_cases he : ep0 = s.epoch
    · rw [blink_active now ep0 s (by simpa using hp) he]
      intro d ep ht
      simp only [Option.some.injEq, Prod.mk.injEq, BlinkCont.blink.injEq] at ht
      omega
    · rw [blink_stale now ep0 s (Or.inr he)]
      intro d ep ht
      exact h d ep ht

theorem blinkEpochPos_fire (now : Nat) (s : BlinkCursor)
    (h : BlinkEpochPos s) : BlinkEpochPos (s.fire now) := by
  unfold BlinkCursor.fire
  cases hts : s._task with
  | none => exact h
  | some dc =>
    obtain ⟨d, c⟩ := dc
    cases c with
    | blink e =>
      simp only [BlinkCursor.runCont]
      refine blinkEpochPos_blink now e _ ?_
      intro d' ep' ht'
      simp at ht'
    | resume g =>
      simp only [BlinkCursor.runCont]
      rw [resumeFromPause_eq]
      intro d' ep' ht'
      simp only [Option.some.injEq, Prod.mk.injEq, BlinkCont.blink.injEq] at ht'
      omega

theorem blinkEpochPos_step (now : Nat) (e : Event) (s : BlinkCursor)
    (h : BlinkEpochPos s) : BlinkEpochPos (step now e s) := by
  cases e with
  | start => exact blinkEpochPos_blink now s.epoch s h
  | stop =>
    intro d ep ht
    exact h d ep ht
  | pause =>
    intro d ep ht
    rw [show step now Event.pause s = s.pause now from rfl, pause_eq] at ht
    simp at ht
  | fire => exact blinkEpochPos_fire now s h

theorem blinkEpochPos_trace {t0 : Nat} {s0 : BlinkCursor} {t : Nat}
    {s : BlinkCursor} (h : TraceFrom t0 s0 t s) (h0 : BlinkEpochPos s0) :
    BlinkEpochPos s := by
  induction h with
  | refl => exact h0
  | step t' e htr hle hready ih => exact blinkEpochPos_step t' e _ ih

/-- While a resume continuation scheduled at or after time `cut - PAUSE_DELAY`
is the only thing that could clear `paused`, the scheduler stays paused and
its task slot only ever holds resume continuations due no earlier than `cut`. -/
def ResumeOnly (cut : Nat) (s : BlinkCursor) : Prop :=
  s.paused = true ∧
    ∀ d c, s._task = some (d, c) → (∃ g, c = BlinkCont.resume g) ∧ cut ≤ d

theorem resumeOnly_step (cut now : Nat) (e : Event) (s : BlinkCursor)
    (hinv : ResumeOnly cut s) (hnow : now < cut)
    (hdelay : cut ≤ now + PAUSE_DELAY) (hready : ready e now s) :
    ResumeOnly cut (step now e s) := by
  obtain ⟨hp, htask⟩ := hinv
  cases e with
  | start =>
    rw [show step now Event.start s = s.blink now s.epoch from rfl,
      blink_stale now s.epoch s (Or.inl hp)]
    refine ⟨hp, ?_⟩
    intro d c ht
    exact htask d c ht
  | stop =>
    refine ⟨hp, ?_⟩
    intro d c ht
    exact htask d c ht
  | pause =>
    rw [show step now Event.pause s = s.pause now from rfl, pause_eq]
    refine ⟨rfl, ?_⟩
    intro d c ht
    simp only [Option.some.injEq, Prod.mk.injEq] at ht
    exact ⟨⟨s.epoch + 1, ht.2.symm⟩, by omega⟩
  | fire =>
    exfalso
    cases hts : s._task with
    | none => simp [ready, hts] at hready
    | some dc =>
      obtain ⟨d, c⟩ := dc
      simp only [ready, hts] at hready
      have := (htask d c hts).2
      omega

theorem resumeOnly_trace (cut : Nat) {t0 : Nat} {s0 : BlinkCursor} {t : Nat}
    {s : BlinkCursor} (h : TraceFrom t0 s0 t s) (h0 : ResumeOnly cut s0)
    (hdelay : cut ≤ t0 + PAUSE_DELAY) : t < cut → ResumeOnly cut s := by
  induction h with
  | refl => intro _; exact h0
  | step t' e htr hle hready ih =>
    intro ht'
    have ht0 := TraceFrom.time_mono htr
    exact resumeOnly_step cut t' e _ (ih (Nat.lt_of_le_of_lt hle ht')) ht'
      (Nat.le_trans hdelay (Nat.add_le_add_right (Nat.le_trans ht0 hle) _)) hready

/-! ### Claims -/

/-- C1: the claim states that a resume continuation scheduled by `pause` whose
captured epoch no longer matches the current epoch when it fires must leave
`visible`, `paused` and `epoch` unchanged and schedule no further work.  The
code violates this: the resume closure performs no epoch comparison.  This
theorem exhibits the divergence: after `pause` at time 0 and then `stop`, the
pending resume continuation (ghost epoch 1) is stale (current epoch 0), yet
when it fires at its deadline it clears `paused`, advances the epoch to 1,
and schedules a fresh blink continuation, restarting the blink loop that
`stop` was meant to end. -/
theorem pause_stop_resume_still_mutates :
    ((BlinkCursor.new.pause 0).stop)._task
        = some (PAUSE_DELAY, BlinkCont.resume 1) ∧
    ((BlinkCursor.new.pause 0).stop).epoch = 0 ∧
    ((BlinkCursor.new.pause 0).stop).paused = true ∧
    (((BlinkCursor.new.pause 0).stop).fire PAUSE_DELAY).paused = false ∧
    (((BlinkCursor.new.pause 0).stop).fire PAUSE_DELAY).epoch = 1 ∧
    (((BlinkCursor.new.pause 0).stop).fire PAUSE_DELAY)._task
        = some (PAUSE_DELAY + INTERVAL, BlinkCont.blink 1) := by
  decide

/-- C2 counterexample: the claim states that when `stop()` is called while a
blink continuation is in flight, the later firing of that continuation changes
nothing about the visible state.  Concretely: `start` at time 0 (caret shown),
the blink continuation fires at 500 (caret hidden, next blink scheduled for
1000), `stop` at 600.  When the now-stale blink continuation fires at 1000 it
takes the stale branch, which sets `visible = true`: `visible()` changes from
`false` before the firing to `true` after it, refuting the claim. -/
theorem stop_inflight_blink_changes_visibleQuery :
    (((BlinkCursor.new.start 0).fire 500).stop)._task
        = some (1000, BlinkCont.blink 2) ∧
    (((BlinkCursor.new.start 0).fire 500).stop).epoch = 0 ∧
    (((BlinkCursor.new.start 0).fire 500).stop).visibleQuery = false ∧
    ((((BlinkCursor.new.start 0).fire 500).stop).fire 1000).visibleQuery
        = true := by
  decide

/-- C2 amended: if `stop()` is called while a blink continuation is in flight,
then when that continuation fires it schedules no further work and signals no
notify, and it sets `visible` to `true`; hence `visible()` afterwards is
`true`, which is unchanged from before the firing exactly when `visible()`
already was `true` (it changes from `false` to `true` otherwise).  The
reachability hypothesis supplies the fact that every pending blink
continuation carries a nonzero epoch, hence is stale once `stop` has reset
the epoch to 0. -/
theorem stop_then_stale_blink_fire {t : Nat} (s : BlinkCursor) (d ep now : Nat)
    (hr : Reaches t s) (htask : s._task = some (d, BlinkCont.blink ep)) :
    (s.stop.fire now)._task = none ∧
    (s.stop.fire now).notified = s.stop.notified ∧
    (s.stop.fire now).visible = true ∧
    (s.stop.fire now).epoch = s.stop.epoch ∧
    ((s.stop.fire now).visibleQuery = s.stop.visibleQuery
      ↔ s.stop.visibleQuery = true) := by
  have hpos : BlinkEpochPos s := by
    refine blinkEpochPos_trace hr ?_
    intro d' ep' ht'
    simp [BlinkCursor.new] at ht'
  have hep : 0 < ep := hpos d ep htask
  have htask' : s.stop._task = some (d, BlinkCont.blink ep) := htask
  have hfire : s.stop.fire now
      = { s.stop with visible := true, _task := none } := by
    unfold BlinkCursor.fire
    rw [htask']
    simp only [BlinkCursor.runCont]
    rw [blink_stale now ep _ (Or.inr (by simp [BlinkCursor.stop]; omega))]
  rw [hfire]
  refine ⟨rfl, rfl, rfl, rfl, ?_⟩
  simp only [BlinkCursor.visibleQuery, Bool.or_true]
  exact eq_comm

/-- Witness for the C2 amended theorem: `start` at time 0 reaches a state with
a pending blink continuation (deadline 500, epoch 1); after `stop`, the firing
at time 1000 leaves no task, no new notify, `visible = true`. -/
theorem stop_then_stale_blink_fire_witness :
    (((BlinkCursor.new.start 0).stop).fire 1000)._task = none ∧
    (((BlinkCursor.new.start 0).stop).fire 1000).notified
        = ((BlinkCursor.new.start 0).stop).notified ∧
    (((BlinkCursor.new.start 0).stop).fire 1000).visible = true ∧
    (((BlinkCursor.new.start 0).stop).fire 1000).epoch
        = ((BlinkCursor.new.start 0).stop).epoch ∧
    ((((BlinkCursor.new.start 0).stop).fire 1000).visibleQuery
        = ((BlinkCursor.new.start 0).stop).visibleQuery
      ↔ ((BlinkCursor.new.start 0).stop).visibleQuery = true) :=
  stop_then_stale_blink_fire (BlinkCursor.new.start 0) 500 1 1000
    (TraceFrom.step 0 Event.start (TraceFrom.refl 0 BlinkCursor.new)
      (Nat.le_refl 0) trivial)
    (by decide)

/-- C3: for a state with a pending resume continuation from an earlier
`pause` at time `t1`, calling `pause` again at time `t2` (before the first
resume's deadline) restarts the pause delay from zero: the owned task is now a
resume continuation due at `t2 + PAUSE_DELAY`; the earlier resume continuation
(ghost epoch `s0.epoch + 1`) is no longer owned — replacing `_task` cancelled
it, so it never runs and never mutates state; and along every enabled trace
from the second `pause`, `paused` remains `true` at every time before
`t2 + PAUSE_DELAY`. -/
theorem pause_debounce (s0 : BlinkCursor) (t1 t2 : Nat) (h12 : t1 ≤ t2)
    (hbefore : t2 < t1 + PAUSE_DELAY) :
    ((s0.pause t1).pause t2)._task
        = some (t2 + PAUSE_DELAY, BlinkCont.resume (s0.epoch + 2)) ∧
    (∀ d, ((s0.pause t1).pause t2)._task
        ≠ some (d, BlinkCont.resume (s0.epoch + 1))) ∧
    (∀ t s', TraceFrom t2 ((s0.pause t1).pause t2) t s' →
      t < t2 + PAUSE_DELAY → s'.paused = true) := by
  have htask : ((s0.pause t1).pause t2)._task
      = some (t2 + PAUSE_DELAY, BlinkCont.resume (s0.epoch + 2)) := by
    rw [pause_eq, pause_eq]
  refine ⟨htask, ?_, ?_⟩
  · intro d h
    rw [htask] at h
    simp only [Option.some.injEq, Prod.mk.injEq, BlinkCont.resume.injEq] at h
    omega
  · intro t s' htr ht
    refine (resumeOnly_trace (t2 + PAUSE_DELAY) htr ⟨?_, ?_⟩ (Nat.le_refl _) ht).1
    · rw [pause_eq, pause_eq]
    · intro d c hc
      rw [htask] at hc
      simp only [Option.some.injEq, Prod.mk.injEq] at hc
      exact ⟨⟨s0.epoch + 2, hc.2.symm⟩, by omega⟩

/-- Witness for C3 at `t1 = 0`, `t2 = 100` from the fresh scheduler, reading
off each component (the trace component at the trivial trace). -/
theorem pause_debounce_witness :
    ((BlinkCursor.new.pause 0).pause 100)._task
        = some (100 + PAUSE_DELAY, BlinkCont.resume (BlinkCursor.new.epoch + 2)) ∧
    ((BlinkCursor.new.pause 0).pause 100)._task
        ≠ some (300, BlinkCont.resume (BlinkCursor.new.epoch + 1)) ∧
    ((BlinkCursor.new.pause 0).pause 100).paused = true :=
  ⟨(pause_debounce BlinkCursor.new 0 100 (by decide) (by decide)).1,
   (pause_debounce BlinkCursor.new 0 100 (by decide) (by decide)).2.1 300,
   (pause_debounce BlinkCursor.new 0 100 (by decide) (by decide)).2.2 100 _
     (TraceFrom.refl 100 _) (by decide)⟩

/-- C4: the query `visible()` returns exactly `paused || visible`, and so in
every state — in particular every reachable one, whatever sequence of
operations produced it — it returns `true` whenever `paused` is `true`,
regardless of the internal toggle flag. -/
theorem visibleQuery_spec (s : BlinkCursor) :
    s.visibleQuery = (s.paused || s.visible) ∧
    (s.paused = true → s.visibleQuery = true) := by
  refine ⟨rfl, ?_⟩
  intro h
  simp [BlinkCursor.visibleQuery, h]

/-- Witness for C4 at the paused state reached by `pause` at time 0. -/
theorem visibleQuery_spec_witness :
    (BlinkCursor.new.pause 0).paused = true ∧
    (BlinkCursor.new.pause 0).visibleQuery = true :=
  ⟨by decide, (visibleQuery_spec (BlinkCursor.new.pause 0)).2 (by decide)⟩

/-- C5: the epoch counter increases by exactly one on the reschedule done by
the active blink step, by `pause`, and by the resume-from-pause step; `stop`
sets it to exactly 0; and no other operation sets it to 0: `start`, `blink`
and a timer firing can only end with epoch 0 if it already was 0, and `pause`
never ends with epoch 0. -/
theorem epoch_discipline (now ep : Nat) (s : BlinkCursor) :
    (s.paused = false → ep = s.epoch → (s.blink now ep).epoch = s.epoch + 1) ∧
    (s.pause now).epoch = s.epoch + 1 ∧
    (s.resumeFromPause now).epoch = s.epoch + 1 ∧
    s.stop.epoch = 0 ∧
    ((s.start now).epoch = 0 → s.epoch = 0) ∧
    ((s.blink now ep).epoch = 0 → s.epoch = 0) ∧
    (s.pause now).epoch ≠ 0 ∧
    ((s.fire now).epoch = 0 → s.epoch = 0) := by
  have hblink : ∀ (s' : BlinkCursor) (e' : Nat),
      (s'.blink now e').epoch = 0 → s'.epoch = 0 := by
    intro s' e' h
    by_cases hp : s'.paused = true
    · rw [blink_stale now e' s' (Or.inl hp)] at h
      exact h
    · by_cases he : e' = s'.epoch
      · rw [blink_active now e' s' (by simpa using hp) he] at h
        simp at h
      · rw [blink_stale now e' s' (Or.inr he)] at h
        exact h
  refine ⟨?_, ?_, ?_, rfl, ?_, hblink s ep, ?_, ?_⟩
  · intro hp he
    rw [blink_active now ep s hp he]
  · rw [pause_eq]
  · rw [resumeFromPause_eq]
  · exact hblink s s.epoch
  · rw [pause_eq]
    simp
  · intro h
    revert h
    unfold BlinkCursor.fire
    cases hts : s._task with
    | none => exact fun h => h
    | some dc =>
      obtain ⟨d, c⟩ := dc
      cases c with
      | blink e =>
        simp only [BlinkCursor.runCont]
        exact fun h => hblink { s with _task := none } e h
      | resume g =>
        simp only [BlinkCursor.runCont]
        rw [resumeFromPause_eq]
        intro h
        simp at h

/-- Witness for C5: at the fresh scheduler the active blink step advances the
epoch from 0 to 1. -/
theorem epoch_discipline_witness :
    BlinkCursor.new.paused = false ∧
    (BlinkCursor.new.blink 0 0).epoch = BlinkCursor.new.epoch + 1 :=
  ⟨by decide, (epoch_discipline 0 0 BlinkCursor.new).1 (by decide) (by decide)⟩

/-- C6: when the blink step runs with `paused` true or with an epoch argument
different from the live epoch, it sets `visible` to `true` and does nothing
else: no toggle, no epoch change, no notify, and no continuation scheduled
(the state is unchanged except for `visible := true`). -/
theorem blink_stale_noop (now ep : Nat) (s : BlinkCursor)
    (h : s.paused = true ∨ ep ≠ s.epoch) :
    s.blink now ep = { s with visible := true } :=
  blink_stale now ep s h

/-- Witness for C6: a blink step arriving while paused only forces `visible`. -/
theorem blink_stale_noop_witness :
    (BlinkCursor.new.pause 0).paused = true ∧
    (BlinkCursor.new.pause 0).blink 300 1
      = { (BlinkCursor.new.pause 0) with visible := true } :=
  ⟨by decide, blink_stale_noop 300 1 (BlinkCursor.new.pause 0)
    (Or.inl (by decide))⟩

/-- C7: when the blink step runs with `paused` false and a matching epoch, it
negates `visible`, signals one notify, advances the epoch by exactly one, and
stores exactly one new blink continuation carrying the new epoch, due one
blink interval after the firing time. -/
theorem blink_active_step (now ep : Nat) (s : BlinkCursor)
    (hp : s.paused = false) (he : ep = s.epoch) :
    s.blink now ep =
      { s with
        visible := !s.visible,
        notified := s.notified + 1,
        epoch := s.epoch + 1,
        _task := some (now + INTERVAL, BlinkCont.blink (s.epoch + 1)) } :=
  blink_active now ep s hp he

/-- Witness for C7 at the fresh scheduler: the first blink step toggles
`visible` from `false` and schedules `blink 1` for time `INTERVAL`. -/
theorem blink_active_step_witness :
    BlinkCursor.new.paused = false ∧
    BlinkCursor.new.blink 0 0 =
      { BlinkCursor.new with
        visible := !BlinkCursor.new.visible,
        notified := BlinkCursor.new.notified + 1,
        epoch := BlinkCursor.new.epoch + 1,
        _task := some (0 + INTERVAL,
          BlinkCont.blink (BlinkCursor.new.epoch + 1)) } :=
  ⟨by decide, blink_active_step 0 0 BlinkCursor.new (by decide) (by decide)⟩

/-- C8: when the resume continuation fires and the epoch recorded at its
scheduling time still equals the live epoch, it sets `paused` to `false`,
forces `visible` to `true`, signals one notify, advances the epoch by one,
and stores one blink continuation carrying the new epoch, due one full blink
interval after the firing time — so the first toggle after resuming happens
no earlier than a full interval later. -/
theorem resume_matching_epoch_step (now d g : Nat) (s : BlinkCursor)
    (htask : s._task = some (d, BlinkCont.resume g)) (hg : g = s.epoch) :
    s.fire now =
      { s with
        paused := false,
        visible := true,
        notified := s.notified + 1,
        epoch := s.epoch + 1,
        _task := some (now + INTERVAL, BlinkCont.blink (s.epoch + 1)) } := by
  unfold BlinkCursor.fire
  rw [htask]
  simp only [BlinkCursor.runCont]
  rw [resumeFromPause_eq]

/-- Witness for C8: after `pause` at time 0 the pending resume (ghost epoch 1)
matches the live epoch 1; firing it at time 300 resumes and schedules `blink 2`
for time 800. -/
theorem resume_matching_epoch_step_witness :
    (BlinkCursor.new.pause 0)._task = some (300, BlinkCont.resume 1) ∧
    (BlinkCursor.new.pause 0).epoch = 1 ∧
    (BlinkCursor.new.pause 0).fire 300 =
      { (BlinkCursor.new.pause 0) with
        paused := false,
        visible := true,
        notified := (BlinkCursor.new.pause 0).notified + 1,
        epoch := (BlinkCursor.new.pause 0).epoch + 1,
        _task := some (300 + INTERVAL,
          BlinkCont.blink ((BlinkCursor.new.pause 0).epoch + 1)) } :=
  ⟨by decide, by decide,
   resume_matching_epoch_step 300 300 1 (BlinkCursor.new.pause 0)
     (by decide) (by decide)⟩

/-- C9: calling `start` while `paused` is true sets `visible` to `true` and
does nothing else — no toggle, no epoch change, no notify, no continuation
scheduled — because `start` delegates to the blink step, whose paused branch
returns immediately; so `start` does not resume blinking while paused. -/
theorem start_while_paused (now : Nat) (s : BlinkCursor)
    (hp : s.paused = true) :
    s.start now = { s with visible := true } :=
  blink_stale now s.epoch s (Or.inl hp)

/-- Witness for C9 at the paused state reached by `pause` at time 0. -/
theorem start_while_paused_witness :
    (BlinkCursor.new.pause 0).paused = true ∧
    (BlinkCursor.new.pause 0).start 50
      = { (BlinkCursor.new.pause 0) with visible := true } :=
  ⟨by decide, start_while_paused 50 (BlinkCursor.new.pause 0) (by decide)⟩

/-- C10: `stop` changes only the epoch field, setting it to 0, and signals one
notify; `visible`, `paused` and the owned task are untouched. In particular,
stopping while paused leaves `paused` equal to `true`, so `visible()` still
returns `true` afterwards. -/
theorem stop_frame (s : BlinkCursor) :
    s.stop = { s with epoch := 0, notified := s.notified + 1 } ∧
    (s.paused = true → s.stop.visibleQuery = true) := by
  refine ⟨rfl, ?_⟩
  intro h
  simp [BlinkCursor.visibleQuery, BlinkCursor.stop, h]

/-- Witness for C10 at the paused state reached by `pause` at time 0. -/
theorem stop_frame_witness :
    (BlinkCursor.new.pause 0).paused = true ∧
    ((BlinkCursor.new.pause 0).stop).visibleQuery = true :=
  ⟨by decide, (stop_frame (BlinkCursor.new.pause 0)).2 (by decide)⟩
